import Mathlib

/-!
Verification of the lenticular-lab core against its specification.

The definitions below are shallow embeddings of the TypeScript sources:
* `src/lenticular-engine.ts` — `createTiffBlob`, `generateLenticularImage`,
  `generateCalibrationChart`;
* `src/physics.ts` — `calculateFOV`, `renderSimulationFrame`.

Machine integers written through `DataView`/`Uint8Array` are modelled as `ℕ`
with explicit reduction modulo 256 / 2^16 / 2^32 at each write, matching the
wrapping behaviour of the JavaScript typed-array API.  Exact numeric code
(pixel bookkeeping, interlacing geometry, calibration bands) is modelled over
`ℚ`; the transcendental lens optics (`calculateFOV`, the simulation renderer)
is modelled over `ℝ`.
-/

namespace LenticularLab

/-! ## TiffEncoder — `createTiffBlob` (src/lenticular-engine.ts, lines 254-353)

The encoder writes, in order: an 8-byte header, the RGB pixel data (alpha
dropped), the out-of-line values (XResolution, YResolution, BitsPerSample),
and a 12-tag IFD terminated by a 4-byte zero. -/

/-- `DataView.setUint16 (littleEndian)`: the value is reduced modulo 2^16 and
emitted as two bytes, least significant first. -/
def le16 (v : ℕ) : List ℕ := [v % 256, v / 256 % 256]

/-- `DataView.setUint32 (littleEndian)`: the value is reduced modulo 2^32 and
emitted as four bytes, least significant first. -/
def le32 (v : ℕ) : List ℕ :=
  [v % 256, v / 256 % 256, v / 65536 % 256, v / 16777216 % 256]

/-- The pixel-copy loop of `createTiffBlob`: RGBA bytes are copied four at a
time into RGB triplets, skipping the alpha byte.  Each store goes through a
`Uint8Array`, hence the reduction modulo 256. -/
def dropAlpha : List ℕ → List ℕ
  | r :: g :: b :: _ :: rest => r % 256 :: g % 256 :: b % 256 :: dropAlpha rest
  | _ => []

/-- `ToUint32` coercion applied by `DataView.setUint32` to an integral
JavaScript number (used for the `Math.round(d * 100)` resolution numerators,
which can in principle be negative). -/
def u32OfInt (z : ℤ) : ℕ := (z % 4294967296).toNat

/-- `rgbSize = pixelCount * 3` in `createTiffBlob`. -/
def rgbSize (w h : ℕ) : ℕ := w * h * 3

/-- Offset of the XResolution rational: directly after header and pixel data. -/
def xResOffset (w h : ℕ) : ℕ := 8 + rgbSize w h

/-- Offset of the YResolution rational. -/
def yResOffset (w h : ℕ) : ℕ := xResOffset w h + 8

/-- Offset of the three BitsPerSample shorts. -/
def bitsOffset (w h : ℕ) : ℕ := yResOffset w h + 8

/-- Offset of the IFD: `headerSize + rgbSize + extraValuesSize`. -/
def ifdOffset (w h : ℕ) : ℕ := 8 + rgbSize w h + 22

/-- `fileSize = headerSize + rgbSize + extraValuesSize + ifdSize`. -/
def tiffFileSize (w h : ℕ) : ℕ := 8 + rgbSize w h + 22 + 150

/-- Numerator stored for a resolution tag: `Math.round(density * 100)` pushed
through the `setUint32` integer coercion. -/
def resNumerator (d : ℚ) : ℕ := u32OfInt (round (d * 100))

/-- The twelve IFD entries `(tag, type, count, value)` exactly as written by
the sequence of `writeTag` calls in `createTiffBlob`. -/
def tiffEntries (w h : ℕ) : List (ℕ × ℕ × ℕ × ℕ) :=
  [(256, 4, 1, w), (257, 4, 1, h), (258, 3, 3, bitsOffset w h),
   (259, 3, 1, 1), (262, 3, 1, 2), (273, 4, 1, 8),
   (277, 3, 1, 3), (278, 4, 1, h), (279, 4, 1, rgbSize w h),
   (282, 5, 1, xResOffset w h), (283, 5, 1, yResOffset w h), (296, 3, 1, 2)]

/-- One `writeTag` call: 16-bit tag, 16-bit type, 32-bit count, 32-bit value. -/
def serEntry : ℕ × ℕ × ℕ × ℕ → List ℕ
  | (t, ty, c, v) => le16 t ++ le16 ty ++ le32 c ++ le32 v

/-- Section 1 of `createTiffBlob`: byte-order marker `II`, magic number 42,
and the 4-byte offset of the IFD (placed at the end of the file). -/
def tiffHeader (w h : ℕ) : List ℕ := le16 0x4949 ++ le16 42 ++ le32 (ifdOffset w h)

/-- Section 3 of `createTiffBlob`: the out-of-line tag values — XResolution
and YResolution rationals and the three BitsPerSample shorts. -/
def tiffExtras (hppi vppi : ℚ) : List ℕ :=
  le32 (resNumerator hppi) ++ le32 100
  ++ le32 (resNumerator vppi) ++ le32 100
  ++ le16 8 ++ le16 8 ++ le16 8

/-- Section 4 of `createTiffBlob`: the tag count, the twelve entries, and the
terminal 4-byte zero (no further IFD). -/
def tiffIFD (w h : ℕ) : List ℕ :=
  le16 12 ++ (tiffEntries w h).flatMap serEntry ++ le32 0

/-- The complete byte buffer produced by `createTiffBlob` for a raster of
`w × h` RGBA bytes `data` at densities `hppi`, `vppi`. -/
def tiffBytes (w h : ℕ) (data : List ℕ) (hppi vppi : ℚ) : List ℕ :=
  tiffHeader w h ++ dropAlpha data ++ tiffExtras hppi vppi ++ tiffIFD w h

/-- Little-endian 16-bit read from a byte list (out-of-range bytes read 0). -/
def readLE16 (b : List ℕ) (off : ℕ) : ℕ :=
  b.getD off 0 + 256 * b.getD (off + 1) 0

/-- Little-endian 32-bit read from a byte list (out-of-range bytes read 0). -/
def readLE32 (b : List ℕ) (off : ℕ) : ℕ :=
  b.getD off 0 + 256 * b.getD (off + 1) 0 + 65536 * b.getD (off + 2) 0
    + 16777216 * b.getD (off + 3) 0

@[simp] lemma le16_length (v : ℕ) : (le16 v).length = 2 := rfl

@[simp] lemma le32_length (v : ℕ) : (le32 v).length = 4 := rfl

@[simp] lemma serEntry_length (e : ℕ × ℕ × ℕ × ℕ) : (serEntry e).length = 12 := by
  rcases e with ⟨t, ty, c, v⟩; rfl

lemma u32OfInt_lt (z : ℤ) : u32OfInt z < 4294967296 := by
  have h := Int.emod_lt_of_pos z (show (0:ℤ) < 4294967296 by norm_num)
  have h0 := Int.emod_nonneg z (show (4294967296:ℤ) ≠ 0 by norm_num)
  unfold u32OfInt
  omega

lemma dropAlpha_length : ∀ l : List ℕ, (dropAlpha l).length = 3 * (l.length / 4)
  | [] => by simp [dropAlpha]
  | [_] => by simp [dropAlpha]
  | [_, _] => by simp [dropAlpha]
  | [_, _, _] => by simp [dropAlpha]
  | _ :: _ :: _ :: _ :: rest => by
      simp only [dropAlpha, List.length_cons, dropAlpha_length rest]
      omega

lemma dropAlpha_getD :
    ∀ (i : ℕ) (l : List ℕ), 4 * i + 4 ≤ l.length →
      (dropAlpha l).getD (3 * i) 0 = l.getD (4 * i) 0 % 256 ∧
      (dropAlpha l).getD (3 * i + 1) 0 = l.getD (4 * i + 1) 0 % 256 ∧
      (dropAlpha l).getD (3 * i + 2) 0 = l.getD (4 * i + 2) 0 % 256
  | 0, r :: g :: b :: a :: rest, _ => by
      simp [dropAlpha, List.getD]
  | i + 1, r :: g :: b :: a :: rest, hle => by
      have hrest : 4 * i + 4 ≤ rest.length := by
        simp only [List.length_cons] at hle; omega
      have ih := dropAlpha_getD i rest hrest
      have e3 : 3 * (i + 1) = 3 * i + 3 := by ring
      have e4 : 4 * (i + 1) = 4 * i + 4 := by ring
      simp only [dropAlpha, e3, e4]
      simpa [List.getD, Nat.add_assoc] using ih
  | 0, [], hle => by simp at hle
  | 0, [_], hle => by simp at hle
  | 0, [_, _], hle => by simp at hle
  | 0, [_, _, _], hle => by simp at hle
  | i + 1, [], hle => by simp at hle
  | i + 1, [_], hle => by simp at hle
  | i + 1, [_, _], hle => by simp at hle
  | i + 1, [_, _, _], hle => by simp at hle

lemma getD_append_len (l₁ l₂ : List ℕ) (n : ℕ) :
    (l₁ ++ l₂).getD (l₁.length + n) 0 = l₂.getD n 0 := by
  rw [List.getD_append_right _ _ _ _ (Nat.le_add_right _ _), Nat.add_sub_cancel_left]

lemma readLE16_append (l₁ l₂ : List ℕ) (n : ℕ) :
    readLE16 (l₁ ++ l₂) (l₁.length + n) = readLE16 l₂ n := by
  unfold readLE16
  rw [show l₁.length + n + 1 = l₁.length + (n + 1) by ring]
  rw [getD_append_len, getD_append_len]

lemma readLE32_append (l₁ l₂ : List ℕ) (n : ℕ) :
    readLE32 (l₁ ++ l₂) (l₁.length + n) = readLE32 l₂ n := by
  unfold readLE32
  rw [show l₁.length + n + 1 = l₁.length + (n + 1) by ring,
      show l₁.length + n + 2 = l₁.length + (n + 2) by ring,
      show l₁.length + n + 3 = l₁.length + (n + 3) by ring]
  rw [getD_append_len, getD_append_len, getD_append_len, getD_append_len]

lemma readLE16_le16 (v : ℕ) (rest : List ℕ) :
    readLE16 (le16 v ++ rest) 0 = v % 65536 := by
  simp [readLE16, le16, List.getD]
  omega

lemma readLE32_le32 (v : ℕ) (rest : List ℕ) :
    readLE32 (le32 v ++ rest) 0 = v % 4294967296 := by
  simp [readLE32, le32, List.getD]
  omega

lemma entries_flatMap_length (es : List (ℕ × ℕ × ℕ × ℕ)) :
    (es.flatMap serEntry).length = 12 * es.length := by
  induction es with
  | nil => rfl
  | cons e es ih => simp [List.flatMap_cons, ih]; ring

lemma entries_read (es : List (ℕ × ℕ × ℕ × ℕ)) (tail : List ℕ) :
    ∀ k, k < es.length →
      readLE16 (es.flatMap serEntry ++ tail) (12 * k)
        = (es.getD k (0, 0, 0, 0)).1 % 65536 ∧
      readLE32 (es.flatMap serEntry ++ tail) (12 * k + 8)
        = (es.getD k (0, 0, 0, 0)).2.2.2 % 4294967296 := by
  induction es with
  | nil => intro k hk; simp at hk
  | cons e es ih =>
    intro k hk
    rcases e with ⟨t, ty, c, v⟩
    cases k with
    | zero =>
      constructor
      · simpa [List.flatMap_cons, serEntry, List.append_assoc] using
          readLE16_le16 t (le16 ty ++ le32 c ++ le32 v ++ (es.flatMap serEntry ++ tail))
      · have h8 : (le16 t ++ le16 ty ++ le32 c).length = 8 := rfl
        have := readLE32_append (le16 t ++ le16 ty ++ le32 c)
          (le32 v ++ (es.flatMap serEntry ++ tail)) 0
        rw [h8] at this
        simpa [List.flatMap_cons, serEntry, List.append_assoc, readLE32_le32] using this
    | succ k =>
      have hk' : k < es.length := by simpa using Nat.lt_of_succ_lt_succ hk
      have ih' := ih k hk'
      have h12 : (serEntry (t, ty, c, v)).length = 12 := rfl
      constructor
      · have := readLE16_append (serEntry (t, ty, c, v)) (es.flatMap serEntry ++ tail) (12 * k)
        rw [h12] at this
        simpa [List.flatMap_cons, List.append_assoc,
               show 12 * (k + 1) = 12 + 12 * k by ring, ih'.1] using this
      · have := readLE32_append (serEntry (t, ty, c, v)) (es.flatMap serEntry ++ tail) (12 * k + 8)
        rw [h12] at this
        simpa [List.flatMap_cons, List.append_assoc,
               show 12 * (k + 1) + 8 = 12 + (12 * k + 8) by ring, ih'.2] using this

@[simp] lemma tiffHeader_length (w h : ℕ) : (tiffHeader w h).length = 8 := rfl

@[simp] lemma tiffExtras_length (hppi vppi : ℚ) : (tiffExtras hppi vppi).length = 22 := rfl

@[simp] lemma tiffEntries_length (w h : ℕ) : (tiffEntries w h).length = 12 := rfl

lemma tiffIFD_length (w h : ℕ) : (tiffIFD w h).length = 150 := by
  simp only [tiffIFD, List.length_append, entries_flatMap_length, le16_length,
    le32_length, tiffEntries_length]

lemma tiffBytes_assoc (w h : ℕ) (data : List ℕ) (hppi vppi : ℚ) :
    tiffBytes w h data hppi vppi
      = (tiffHeader w h ++ dropAlpha data ++ tiffExtras hppi vppi) ++ tiffIFD w h := by
  simp [tiffBytes, List.append_assoc]

lemma dropAlpha_data_length {w h : ℕ} {data : List ℕ} (hdata : data.length = 4 * (w * h)) :
    (dropAlpha data).length = rgbSize w h := by
  rw [dropAlpha_length, hdata, rgbSize]
  omega

lemma tiff_prefix2_length {w h : ℕ} {data : List ℕ} (hdata : data.length = 4 * (w * h)) :
    (tiffHeader w h ++ dropAlpha data).length = xResOffset w h := by
  simp [dropAlpha_data_length hdata, xResOffset]

lemma tiff_prefix3_length {w h : ℕ} {data : List ℕ} (hppi vppi : ℚ)
    (hdata : data.length = 4 * (w * h)) :
    (tiffHeader w h ++ dropAlpha data ++ tiffExtras hppi vppi).length = ifdOffset w h := by
  simp [dropAlpha_data_length hdata, ifdOffset]
  omega

lemma tiff_drop_ifd {w h : ℕ} {data : List ℕ} {hppi vppi : ℚ}
    (hdata : data.length = 4 * (w * h)) :
    (tiffBytes w h data hppi vppi).drop (ifdOffset w h) = tiffIFD w h := by
  rw [tiffBytes_assoc, ← tiff_prefix3_length hppi vppi hdata,
      ← Nat.add_zero (tiffHeader w h ++ dropAlpha data ++ tiffExtras hppi vppi).length,
      List.drop_append, List.drop_zero]

lemma tiff_read_ifd32 {w h : ℕ} {data : List ℕ} {hppi vppi : ℚ}
    (hdata : data.length = 4 * (w * h)) (k : ℕ) :
    readLE32 (tiffBytes w h data hppi vppi) (ifdOffset w h + k)
      = readLE32 (tiffIFD w h) k := by
  rw [tiffBytes_assoc, ← tiff_prefix3_length hppi vppi hdata, readLE32_append]

lemma tiff_read_ifd16 {w h : ℕ} {data : List ℕ} {hppi vppi : ℚ}
    (hdata : data.length = 4 * (w * h)) (k : ℕ) :
    readLE16 (tiffBytes w h data hppi vppi) (ifdOffset w h + k)
      = readLE16 (tiffIFD w h) k := by
  rw [tiffBytes_assoc, ← tiff_prefix3_length hppi vppi hdata, readLE16_append]

lemma tiff_read_extras32 {w h : ℕ} {data : List ℕ} {hppi vppi : ℚ}
    (hdata : data.length = 4 * (w * h)) (k : ℕ) :
    readLE32 (tiffBytes w h data hppi vppi) (xResOffset w h + k)
      = readLE32 (tiffExtras hppi vppi ++ tiffIFD w h) k := by
  have hB : tiffBytes w h data hppi vppi
      = (tiffHeader w h ++ dropAlpha data) ++ (tiffExtras hppi vppi ++ tiffIFD w h) := by
    simp [tiffBytes, List.append_assoc]
  rw [hB, ← tiff_prefix2_length hdata, readLE32_append]

lemma ifd_read16 (w h : ℕ) (k : ℕ) (hk : k < 12) :
    readLE16 (tiffIFD w h) (2 + 12 * k)
      = ((tiffEntries w h).getD k (0, 0, 0, 0)).1 % 65536 := by
  have hsplit : tiffIFD w h
      = le16 12 ++ ((tiffEntries w h).flatMap serEntry ++ le32 0) := by
    simp [tiffIFD, List.append_assoc]
  rw [hsplit, show 2 + 12 * k = (le16 12).length + 12 * k from by simp, readLE16_append]
  exact (entries_read _ _ k (by simpa using hk)).1

lemma ifd_read32 (w h : ℕ) (k : ℕ) (hk : k < 12) :
    readLE32 (tiffIFD w h) (2 + 12 * k + 8)
      = ((tiffEntries w h).getD k (0, 0, 0, 0)).2.2.2 % 4294967296 := by
  have hsplit : tiffIFD w h
      = le16 12 ++ ((tiffEntries w h).flatMap serEntry ++ le32 0) := by
    simp [tiffIFD, List.append_assoc]
  rw [hsplit, show 2 + 12 * k + 8 = (le16 12).length + (12 * k + 8) from by simp; omega,
      readLE32_append]
  exact (entries_read _ _ k (by simpa using hk)).2

lemma tiff_pixel_read {w h : ℕ} {data : List ℕ} {hppi vppi : ℚ}
    (hdata : data.length = 4 * (w * h)) (hbytes : ∀ b ∈ data, b < 256)
    (i : ℕ) (hi : i < w * h) :
    (tiffBytes w h data hppi vppi).getD (8 + 3 * i) 0 = data.getD (4 * i) 0 ∧
    (tiffBytes w h data hppi vppi).getD (8 + 3 * i + 1) 0 = data.getD (4 * i + 1) 0 ∧
    (tiffBytes w h data hppi vppi).getD (8 + 3 * i + 2) 0 = data.getD (4 * i + 2) 0 := by
  obtain ⟨N, hN⟩ : ∃ N, w * h = N := ⟨_, rfl⟩
  rw [hN] at hdata hi
  have h1 : tiffBytes w h data hppi vppi
      = tiffHeader w h ++ (dropAlpha data ++ (tiffExtras hppi vppi ++ tiffIFD w h)) := by
    simp [tiffBytes, List.append_assoc]
  have hpix : (dropAlpha data).length = 3 * N := by
    rw [dropAlpha_length, hdata]; omega
  have key := dropAlpha_getD i data (by omega)
  have hnav : ∀ j, j ≤ 2 →
      (tiffBytes w h data hppi vppi).getD (8 + 3 * i + j) 0
        = (dropAlpha data).getD (3 * i + j) 0 := by
    intro j hj
    rw [h1, show 8 + 3 * i + j = (tiffHeader w h).length + (3 * i + j) from by
      rw [tiffHeader_length]; ring, getD_append_len]
    exact List.getD_append _ _ _ _ (by omega)
  have hb : ∀ j, j ≤ 3 → data.getD (4 * i + j) 0 % 256 = data.getD (4 * i + j) 0 := by
    intro j hj
    have hlt : 4 * i + j < data.length := by omega
    rw [List.getD_eq_getElem _ _ hlt]
    exact Nat.mod_eq_of_lt (hbytes _ (List.getElem_mem hlt))
  refine ⟨?_, ?_, ?_⟩
  · have h0 := hnav 0 (by omega)
    have hb0 := hb 0 (by omega)
    simp only [Nat.add_zero] at h0 hb0
    rw [h0, key.1, hb0]
  · rw [hnav 1 (by omega), key.2.1, hb 1 (by omega)]
  · rw [hnav 2 (by omega), key.2.2, hb 2 (by omega)]

lemma resNumerator_eq {d : ℚ} (h0 : 0 ≤ round (d * 100))
    (h1 : round (d * 100) < 4294967296) :
    resNumerator d = (round (d * 100)).toNat := by
  unfold resNumerator u32OfInt
  rw [Int.emod_eq_of_lt h0 h1]

lemma extras_read (hppi vppi : ℚ) (tail : List ℕ) :
    readLE32 (tiffExtras hppi vppi ++ tail) 0 = resNumerator hppi ∧
    readLE32 (tiffExtras hppi vppi ++ tail) 4 = 100 ∧
    readLE32 (tiffExtras hppi vppi ++ tail) 8 = resNumerator vppi ∧
    readLE32 (tiffExtras hppi vppi ++ tail) 12 = 100 := by
  have hE : tiffExtras hppi vppi ++ tail
      = le32 (resNumerator hppi) ++ (le32 100 ++ (le32 (resNumerator vppi)
        ++ (le32 100 ++ (le16 8 ++ (le16 8 ++ (le16 8 ++ tail)))))) := by
    simp [tiffExtras, List.append_assoc]
  refine ⟨?_, ?_, ?_, ?_⟩
  · rw [hE, readLE32_le32]
    exact Nat.mod_eq_of_lt (u32OfInt_lt _)
  · rw [hE, show (4:ℕ) = (le32 (resNumerator hppi)).length + 0 from rfl,
        readLE32_append, readLE32_le32]
  · rw [hE, show (8:ℕ) = (le32 (resNumerator hppi)).length + 4 from rfl,
        readLE32_append, show (4:ℕ) = (le32 (100:ℕ)).length + 0 from rfl,
        readLE32_append, readLE32_le32]
    exact Nat.mod_eq_of_lt (u32OfInt_lt _)
  · rw [hE, show (12:ℕ) = (le32 (resNumerator hppi)).length + 8 from rfl,
        readLE32_append, show (8:ℕ) = (le32 (100:ℕ)).length + 4 from rfl,
        readLE32_append, show (4:ℕ) = (le32 (resNumerator vppi)).length + 0 from rfl,
        readLE32_append, readLE32_le32]

lemma extras_drop16 (hppi vppi : ℚ) (tail : List ℕ) :
    (tiffExtras hppi vppi ++ tail).drop 16 = le16 8 ++ (le16 8 ++ (le16 8 ++ tail)) := by
  have hE : tiffExtras hppi vppi ++ tail
      = (le32 (resNumerator hppi) ++ le32 100 ++ le32 (resNumerator vppi) ++ le32 100)
        ++ (le16 8 ++ (le16 8 ++ (le16 8 ++ tail))) := by
    simp [tiffExtras, List.append_assoc]
  rw [hE, show (16:ℕ) = (le32 (resNumerator hppi) ++ le32 100 ++ le32 (resNumerator vppi)
      ++ le32 100).length + 0 from by simp, List.drop_append, List.drop_zero]

/-- **C2** (amended).  For every `w × h` RGBA raster whose samples are genuine
bytes and whose dimension, strip-size, offset and resolution-numerator
computations all fit the fixed-width 32-bit TIFF fields, the byte buffer
produced by `createTiffBlob` has, in order: an 8-byte little-endian header
(marker 0x4949, magic 42, a 4-byte IFD offset pointing past the pixel and
value data), exactly `3·w·h` pixel bytes equal to the source R,G,B channels
in row-major order with the alpha byte dropped, the XResolution and
YResolution rationals with numerator `round(density·100)` and denominator
100, BitsPerSample `(8,8,8)`, an IFD of exactly 12 tags in ascending
tag-ID order with Compression = 1, PhotometricInterpretation = 2,
SamplesPerPixel = 3, RowsPerStrip = h, StripByteCounts = 3·w·h,
ResolutionUnit = 2, followed by a terminal 4-byte zero; re-parsing yields
ImageWidth = w, ImageLength = h, and XResolution resolving to
`round(hppi·100)/100` (which equals `hppi` exactly when `100·hppi` is an
integer — not for every density, see the counterexample). -/
theorem tiff_layout_roundtrip (w h : ℕ) (data : List ℕ) (hppi vppi : ℚ)
    (hdata : data.length = 4 * (w * h))
    (hbytes : ∀ b ∈ data, b < 256)
    (hsize : tiffFileSize w h ≤ 4294967296)
    (hw : w < 4294967296) (hh : h < 4294967296)
    (hx0 : 0 ≤ round (hppi * 100)) (hx1 : round (hppi * 100) < 4294967296)
    (hy0 : 0 ≤ round (vppi * 100)) (hy1 : round (vppi * 100) < 4294967296) :
    (tiffBytes w h data hppi vppi).length = tiffFileSize w h ∧
    (tiffBytes w h data hppi vppi).take 4 = [0x49, 0x49, 42, 0] ∧
    readLE32 (tiffBytes w h data hppi vppi) 4 = ifdOffset w h ∧
    (∀ i, i < w * h →
      (tiffBytes w h data hppi vppi).getD (8 + 3 * i) 0 = data.getD (4 * i) 0 ∧
      (tiffBytes w h data hppi vppi).getD (8 + 3 * i + 1) 0 = data.getD (4 * i + 1) 0 ∧
      (tiffBytes w h data hppi vppi).getD (8 + 3 * i + 2) 0 = data.getD (4 * i + 2) 0) ∧
    readLE32 (tiffBytes w h data hppi vppi) (xResOffset w h) = (round (hppi * 100)).toNat ∧
    readLE32 (tiffBytes w h data hppi vppi) (xResOffset w h + 4) = 100 ∧
    readLE32 (tiffBytes w h data hppi vppi) (yResOffset w h) = (round (vppi * 100)).toNat ∧
    readLE32 (tiffBytes w h data hppi vppi) (yResOffset w h + 4) = 100 ∧
    ((tiffBytes w h data hppi vppi).drop (bitsOffset w h)).take 6 = [8, 0, 8, 0, 8, 0] ∧
    readLE16 (tiffBytes w h data hppi vppi) (ifdOffset w h) = 12 ∧
    (tiffBytes w h data hppi vppi).drop (ifdOffset w h)
      = le16 12 ++ (tiffEntries w h).flatMap serEntry ++ le32 0 ∧
    tiffEntries w h =
      [(256, 4, 1, w), (257, 4, 1, h), (258, 3, 3, bitsOffset w h),
       (259, 3, 1, 1), (262, 3, 1, 2), (273, 4, 1, 8),
       (277, 3, 1, 3), (278, 4, 1, h), (279, 4, 1, rgbSize w h),
       (282, 5, 1, xResOffset w h), (283, 5, 1, yResOffset w h), (296, 3, 1, 2)] ∧
    rgbSize w h = 3 * (w * h) ∧
    xResOffset w h = 8 + 3 * (w * h) ∧
    yResOffset w h = 8 + 3 * (w * h) + 8 ∧
    bitsOffset w h = 8 + 3 * (w * h) + 16 ∧
    ifdOffset w h = 8 + 3 * (w * h) + 22 ∧
    List.Chain' (fun a b => a < b) ((tiffEntries w h).map (fun e => e.1)) ∧
    ((tiffBytes w h data hppi vppi).drop (ifdOffset w h + 146)).take 4 = [0, 0, 0, 0] ∧
    readLE16 (tiffBytes w h data hppi vppi) (ifdOffset w h + 2) = 256 ∧
    readLE32 (tiffBytes w h data hppi vppi) (ifdOffset w h + 10) = w ∧
    readLE16 (tiffBytes w h data hppi vppi) (ifdOffset w h + 14) = 257 ∧
    readLE32 (tiffBytes w h data hppi vppi) (ifdOffset w h + 22) = h ∧
    readLE16 (tiffBytes w h data hppi vppi) (ifdOffset w h + 110) = 282 ∧
    readLE32 (tiffBytes w h data hppi vppi) (ifdOffset w h + 118) = xResOffset w h ∧
    ((readLE32 (tiffBytes w h data hppi vppi)
        (readLE32 (tiffBytes w h data hppi vppi) (ifdOffset w h + 118)) : ℚ)
      / (readLE32 (tiffBytes w h data hppi vppi)
          (readLE32 (tiffBytes w h data hppi vppi) (ifdOffset w h + 118) + 4) : ℚ)
      = (round (hppi * 100) : ℚ) / 100) := by
  have hext := extras_read hppi vppi (tiffIFD w h)
  have hifdlt : ifdOffset w h < 4294967296 := by
    unfold tiffFileSize at hsize; unfold ifdOffset; omega
  have hxlt : xResOffset w h < 4294967296 := by
    unfold tiffFileSize at hsize; unfold xResOffset; omega
  have hB4 : tiffBytes w h data hppi vppi
      = [73, 73, 42, 0] ++ (le32 (ifdOffset w h) ++ (dropAlpha data
        ++ (tiffExtras hppi vppi ++ tiffIFD w h))) := by
    simp [tiffBytes, tiffHeader, le16, List.append_assoc]
  have hB2 : tiffBytes w h data hppi vppi
      = (tiffHeader w h ++ dropAlpha data) ++ (tiffExtras hppi vppi ++ tiffIFD w h) := by
    simp [tiffBytes, List.append_assoc]
  have hIFDsplit : tiffIFD w h
      = le16 12 ++ ((tiffEntries w h).flatMap serEntry ++ le32 0) := by
    simp [tiffIFD, List.append_assoc]
  have hxr : readLE32 (tiffBytes w h data hppi vppi) (xResOffset w h)
      = (round (hppi * 100)).toNat := by
    have h0 := @tiff_read_extras32 w h data hppi vppi hdata 0
    rw [Nat.add_zero] at h0
    rw [h0, hext.1, resNumerator_eq hx0 hx1]
  have hxd : readLE32 (tiffBytes w h data hppi vppi) (xResOffset w h + 4) = 100 := by
    rw [@tiff_read_extras32 w h data hppi vppi hdata 4, hext.2.1]
  have hv282 : readLE32 (tiffBytes w h data hppi vppi) (ifdOffset w h + 118)
      = xResOffset w h := by
    have hr := ifd_read32 w h 9 (by norm_num)
    norm_num at hr
    rw [tiff_read_ifd32 hdata 118, hr]
    simp only [tiffEntries, List.getD, List.getElem?_cons_succ, List.getElem?_cons_zero,
      Option.getD_some]
    exact Nat.mod_eq_of_lt hxlt
  refine ⟨?_, ?_, ?_, ?_, hxr, hxd, ?_, ?_, ?_, ?_, tiff_drop_ifd hdata, rfl,
    by unfold rgbSize; ring, by unfold xResOffset rgbSize; ring,
    by unfold yResOffset xResOffset rgbSize; ring,
    by unfold bitsOffset yResOffset xResOffset rgbSize; ring,
    by unfold ifdOffset rgbSize; ring,
    ?_, ?_, ?_, ?_, ?_, ?_, ?_, hv282, ?_⟩
  · rw [tiffBytes_assoc]
    simp only [List.length_append, tiffHeader_length, tiffExtras_length, tiffIFD_length,
      dropAlpha_data_length hdata, tiffFileSize]
  · rw [hB4, show (4:ℕ) = ([73, 73, 42, 0] : List ℕ).length + 0 from rfl, List.take_append]
    rfl
  · rw [hB4, show (4:ℕ) = ([(73:ℕ), 73, 42, 0]).length + 0 from rfl, readLE32_append,
      readLE32_le32]
    exact Nat.mod_eq_of_lt hifdlt
  · intro i hi
    exact tiff_pixel_read hdata hbytes i hi
  · rw [show yResOffset w h = xResOffset w h + 8 from rfl,
      @tiff_read_extras32 w h data hppi vppi hdata 8,
      hext.2.2.1, resNumerator_eq hy0 hy1]
  · rw [show yResOffset w h + 4 = xResOffset w h + 12 from by unfold yResOffset; omega,
      @tiff_read_extras32 w h data hppi vppi hdata 12, hext.2.2.2]
  · rw [hB2, show bitsOffset w h = (tiffHeader w h ++ dropAlpha data).length + 16 from by
      rw [tiff_prefix2_length hdata]; unfold bitsOffset yResOffset; omega,
      List.drop_append, extras_drop16]
    rfl
  · have h0 := @tiff_read_ifd16 w h data hppi vppi hdata 0
    rw [Nat.add_zero] at h0
    rw [h0, hIFDsplit, readLE16_le16]
  · simp only [tiffEntries, List.map_cons, List.map_nil]
    norm_num [List.chain'_cons]
  · rw [← List.drop_drop, tiff_drop_ifd hdata,
      show tiffIFD w h = (le16 12 ++ (tiffEntries w h).flatMap serEntry) ++ le32 0 from by
        simp [tiffIFD, List.append_assoc],
      show (146:ℕ) = (le16 12 ++ (tiffEntries w h).flatMap serEntry).length + 0 from by
        simp only [Nat.add_zero, List.length_append, le16_length, entries_flatMap_length,
          tiffEntries_length], List.drop_append, List.drop_zero]
    rfl
  · have hr := ifd_read16 w h 0 (by norm_num)
    norm_num at hr
    rw [tiff_read_ifd16 hdata 2, hr]
    rfl
  · have hr := ifd_read32 w h 0 (by norm_num)
    norm_num at hr
    rw [tiff_read_ifd32 hdata 10, hr]
    simp only [tiffEntries, List.getD, List.getElem?_cons_zero, Option.getD_some]
    exact Nat.mod_eq_of_lt hw
  · have hr := ifd_read16 w h 1 (by norm_num)
    norm_num at hr
    rw [tiff_read_ifd16 hdata 14, hr]
    rfl
  · have hr := ifd_read32 w h 1 (by norm_num)
    norm_num at hr
    rw [tiff_read_ifd32 hdata 22, hr]
    simp only [tiffEntries, List.getD, List.getElem?_cons_succ, List.getElem?_cons_zero,
      Option.getD_some]
    exact Nat.mod_eq_of_lt hh
  · have hr := ifd_read16 w h 9 (by norm_num)
    norm_num at hr
    rw [tiff_read_ifd16 hdata 110, hr]
    rfl
  · rw [hv282, hxr, hxd]
    have hq : (((round (hppi * 100)).toNat : ℕ) : ℚ) = ((round (hppi * 100) : ℤ) : ℚ) := by
      exact_mod_cast Int.toNat_of_nonneg hx0
    rw [hq]
    norm_num

/-- Witness for C2: a concrete 2×2 RGBA raster encoded at 300 PPI satisfies the
hypotheses of `tiff_layout_roundtrip`, and the resulting buffer has the claimed
size, header, and an XResolution that resolves to 300 (= 30000/100). -/
theorem tiff_layout_roundtrip_witness :
    ([255, 0, 0, 255, 0, 255, 0, 255, 0, 0, 255, 255, 10, 20, 30, 40] : List ℕ).length
        = 4 * (2 * 2) ∧
    (tiffBytes 2 2 [255, 0, 0, 255, 0, 255, 0, 255, 0, 0, 255, 255, 10, 20, 30, 40]
        300 300).length = tiffFileSize 2 2 ∧
    ((readLE32 (tiffBytes 2 2 [255, 0, 0, 255, 0, 255, 0, 255, 0, 0, 255, 255, 10, 20, 30, 40]
          300 300)
        (readLE32 (tiffBytes 2 2 [255, 0, 0, 255, 0, 255, 0, 255, 0, 0, 255, 255, 10, 20, 30, 40]
          300 300) (ifdOffset 2 2 + 118)) : ℚ)
      / (readLE32 (tiffBytes 2 2 [255, 0, 0, 255, 0, 255, 0, 255, 0, 0, 255, 255, 10, 20, 30, 40]
          300 300)
        (readLE32 (tiffBytes 2 2 [255, 0, 0, 255, 0, 255, 0, 255, 0, 0, 255, 255, 10, 20, 30, 40]
          300 300) (ifdOffset 2 2 + 118) + 4) : ℚ) = 300) := by
  have hr : round ((300 : ℚ) * 100) = 30000 := by rw [round_eq]; norm_num
  have h := tiff_layout_roundtrip 2 2
    [255, 0, 0, 255, 0, 255, 0, 255, 0, 0, 255, 255, 10, 20, 30, 40] 300 300
    (by norm_num) (by decide) (by norm_num [tiffFileSize, rgbSize]) (by norm_num) (by norm_num)
    (by rw [hr]; norm_num) (by rw [hr]; norm_num) (by rw [hr]; norm_num) (by rw [hr]; norm_num)
  obtain ⟨h1, h2, h3, h4, h5, h6, h7, h8, h9, h10, h11, h12, h13, h14, h15, h16, h17,
    h18, h19, h20, h21, h22, h23, h24, h25, h26⟩ := h
  refine ⟨by norm_num, h1, ?_⟩
  rw [h26, hr]
  norm_num

/-- Counterexample for C2 as literally stated: with density hppi = 1/3 the
stored XResolution rational is 33/100, which does not resolve to hppi; and
with density hppi = 50 000 000 the stored numerator is
5 000 000 000 mod 2^32 = 705 032 704, not `round(hppi·100)` — `setUint32`
silently wraps, so the unrestricted claim fails. -/
theorem tiff_layout_counterexample :
    ((readLE32 (tiffBytes 1 1 [1, 2, 3, 4] (1/3) 100) (xResOffset 1 1) : ℚ)
        / (readLE32 (tiffBytes 1 1 [1, 2, 3, 4] (1/3) 100) (xResOffset 1 1 + 4) : ℚ)
      ≠ (1/3 : ℚ)) ∧
    ((readLE32 (tiffBytes 1 1 [1, 2, 3, 4] 50000000 100) (xResOffset 1 1) : ℤ)
      ≠ round ((50000000 : ℚ) * 100)) := by
  have hnum1 : resNumerator (1/3 : ℚ) = 33 := by
    unfold resNumerator u32OfInt
    rw [show round ((1/3 : ℚ) * 100) = 33 from by rw [round_eq]; norm_num]
    decide
  have hnum2 : resNumerator (50000000 : ℚ) = 705032704 := by
    unfold resNumerator u32OfInt
    rw [show round ((50000000 : ℚ) * 100) = 5000000000 from by rw [round_eq]; norm_num]
    decide
  constructor
  · have h0 := @tiff_read_extras32 1 1 [1, 2, 3, 4] (1/3) 100 (by norm_num) 0
    rw [Nat.add_zero] at h0
    have h4 := @tiff_read_extras32 1 1 [1, 2, 3, 4] (1/3) 100 (by norm_num) 4
    rw [h0, h4, (extras_read (1/3) 100 (tiffIFD 1 1)).1,
      (extras_read (1/3) 100 (tiffIFD 1 1)).2.1, hnum1]
    norm_num
  · have h0 := @tiff_read_extras32 1 1 [1, 2, 3, 4] 50000000 100 (by norm_num) 0
    rw [Nat.add_zero] at h0
    rw [h0, (extras_read 50000000 100 (tiffIFD 1 1)).1, hnum2,
      show round ((50000000 : ℚ) * 100) = 5000000000 from by rw [round_eq]; norm_num]
    norm_num

/-- **C7**: the code performs no overflow validation at all.  For the 1×1 RGBA
raster `[0,0,0,255]` at horizontal density 43 000 000 PPI, the XResolution
numerator `round(hppi·100) = 4 300 000 000` exceeds the 32-bit field, yet
`createTiffBlob` still produces a complete 183-byte buffer with the numerator
silently wrapped to 4 300 000 000 mod 2^32 = 5 032 704 — it is not rejected
as a fatal encoding error, contradicting the claim. -/
theorem tiff_overflow_not_rejected :
    (tiffBytes 1 1 [0, 0, 0, 255] 43000000 300).length = tiffFileSize 1 1 ∧
    tiffFileSize 1 1 = 183 ∧
    round ((43000000 : ℚ) * 100) = 4300000000 ∧
    readLE32 (tiffBytes 1 1 [0, 0, 0, 255] 43000000 300) (xResOffset 1 1) = 5032704 ∧
    (5032704 : ℕ) ≠ 4300000000 := by
  have hround : round ((43000000 : ℚ) * 100) = 4300000000 := by rw [round_eq]; norm_num
  have hnum : resNumerator (43000000 : ℚ) = 5032704 := by
    unfold resNumerator u32OfInt
    rw [hround]
    decide
  refine ⟨?_, by norm_num [tiffFileSize, rgbSize], hround, ?_, by norm_num⟩
  · rw [tiffBytes_assoc]
    simp only [List.length_append, tiffHeader_length, tiffExtras_length, tiffIFD_length,
      dropAlpha_data_length (by norm_num : ([0, 0, 0, 255] : List ℕ).length = 4 * (1 * 1)),
      tiffFileSize]
  · have h0 := @tiff_read_extras32 1 1 [0, 0, 0, 255] 43000000 300 (by norm_num) 0
    rw [Nat.add_zero] at h0
    rw [h0, (extras_read 43000000 300 (tiffIFD 1 1)).1, hnum]

/-! ## Interlacer — `generateLenticularImage` (src/lenticular-engine.ts, lines 7-175)

The canvas mutations are modelled as the ordered list of drawing commands the
function issues; two invocations are pixel-identical exactly when they issue
the same command list.  All numeric code in this path is exact
(`Math.ceil`, rational division), so the embedding is over `ℚ`/`ℤ`. -/

/-- `direction: 'LR' | 'RL'` from types.ts. -/
inductive Direction
  | LR
  | RL
deriving DecidableEq

/-- `alignmentPos: 'external' | 'internal' | 'edge-centered'` from types.ts. -/
inductive AlignmentPos
  | external
  | internal
  | edgeCentered
deriving DecidableEq

/-- `Frame` from types.ts (the raster handle is identified by `id`; `src`
and `name` carry no pixel information). -/
structure LFrame where
  id : ℕ
  width : ℚ
  height : ℚ
  xOffset : ℚ
  yOffset : ℚ
deriving DecidableEq

/-- `JobSettings` from types.ts (the display `unit` field is omitted: the
engine reads only the millimetre values). -/
structure JobSettings where
  widthMm : ℚ
  heightMm : ℚ
  hppi : ℚ
  vppi : ℚ
  lpi : ℚ
  marginTopMm : ℚ
  marginBottomMm : ℚ
  marginLeftMm : ℚ
  marginRightMm : ℚ
  alignmentPos : AlignmentPos
  direction : Direction

/-- `contentWidthPx = Math.ceil((widthMm / 25.4) * hppi)`. -/
def contentWidthPx (s : JobSettings) : ℤ := ⌈s.widthMm / 25.4 * s.hppi⌉

/-- `contentHeightPx = Math.ceil((heightMm / 25.4) * vppi)`. -/
def contentHeightPx (s : JobSettings) : ℤ := ⌈s.heightMm / 25.4 * s.vppi⌉

/-- `marginTopPx = Math.ceil((marginTopMm / 25.4) * vppi)`. -/
def marginTopPx (s : JobSettings) : ℤ := ⌈s.marginTopMm / 25.4 * s.vppi⌉

/-- `marginBottomPx = Math.ceil((marginBottomMm / 25.4) * vppi)`. -/
def marginBottomPx (s : JobSettings) : ℤ := ⌈s.marginBottomMm / 25.4 * s.vppi⌉

/-- `marginLeftPx = Math.ceil((marginLeftMm / 25.4) * hppi)`. -/
def marginLeftPx (s : JobSettings) : ℤ := ⌈s.marginLeftMm / 25.4 * s.hppi⌉

/-- `marginRightPx = Math.ceil((marginRightMm / 25.4) * hppi)`. -/
def marginRightPx (s : JobSettings) : ℤ := ⌈s.marginRightMm / 25.4 * s.hppi⌉

/-- `totalWidthPx = contentWidthPx + marginLeftPx + marginRightPx`. -/
def totalWidthPx (s : JobSettings) : ℤ := contentWidthPx s + marginLeftPx s + marginRightPx s

/-- `totalHeightPx = contentHeightPx + marginTopPx + marginBottomPx`. -/
def totalHeightPx (s : JobSettings) : ℤ := contentHeightPx s + marginTopPx s + marginBottomPx s

/-- `pPx = hppi / lpi` — pixels per pitch. -/
def pitchPx (s : JobSettings) : ℚ := s.hppi / s.lpi

/-- `stripPx = pPx / frames.length` — width of a single frame strip
(sub-pixel widths are kept exact, never rounded). -/
def stripPx (s : JobSettings) (frameCount : ℕ) : ℚ := pitchPx s / frameCount

/-- `numLenses = Math.ceil(contentWidthPx / pPx)`. -/
def numLenses (s : JobSettings) : ℤ := ⌈(contentWidthPx s : ℚ) / pitchPx s⌉

/-- `destX = drawOffsetX + lensX + (f * stripPx)` — the horizontal start of
the clipped destination strip for frame index `f` under lens `l`. -/
def stripDestX (s : JobSettings) (frameCount : ℕ) (l f : ℕ) : ℚ :=
  (marginLeftPx s : ℚ) + l * pitchPx s + f * stripPx s frameCount

/-- One drawing command issued by `generateLenticularImage`. -/
inductive DrawCmd
  | fillBg (w hgt : ℚ)
  | strip (clipX clipY clipW clipH : ℚ) (frame : LFrame) (imgX imgY imgW imgH : ℚ)
  | alignPattern (centerX yStart hgt pitchWidth : ℚ)
  | cropMark (x1 y1 x2 y2 x3 y3 : ℚ)
deriving DecidableEq

/-- The `drawPattern` helper: one centred registration pattern (light
background of width `4·pPx`, centre tick, pitch ticks at ±1·pPx and ±2·pPx),
plus — when the alignment mode is not `internal` — the two extra patterns two
pitch-widths in from the left and right content edges. -/
def patternCmds (s : JobSettings) (yStart hgt : ℚ) : List DrawCmd :=
  DrawCmd.alignPattern ((marginLeftPx s : ℚ) + (contentWidthPx s : ℚ) / 2) yStart hgt (pitchPx s)
  :: (match s.alignmentPos with
      | AlignmentPos.internal => []
      | _ =>
        [DrawCmd.alignPattern ((marginLeftPx s : ℚ) + pitchPx s * 2) yStart hgt (pitchPx s),
         DrawCmd.alignPattern ((marginLeftPx s : ℚ) + (contentWidthPx s : ℚ) - pitchPx s * 2)
           yStart hgt (pitchPx s)])

/-- The four corner crop marks (right-angle brackets of fixed length 20 px). -/
def cropMarkCmds (s : JobSettings) : List DrawCmd :=
  [DrawCmd.cropMark (marginLeftPx s : ℚ) ((marginTopPx s : ℚ) - 20)
     (marginLeftPx s : ℚ) (marginTopPx s : ℚ)
     ((marginLeftPx s : ℚ) - 20) (marginTopPx s : ℚ),
   DrawCmd.cropMark ((marginLeftPx s : ℚ) + (contentWidthPx s : ℚ)) ((marginTopPx s : ℚ) - 20)
     ((marginLeftPx s : ℚ) + (contentWidthPx s : ℚ)) (marginTopPx s : ℚ)
     ((marginLeftPx s : ℚ) + (contentWidthPx s : ℚ) + 20) (marginTopPx s : ℚ),
   DrawCmd.cropMark (marginLeftPx s : ℚ)
     ((marginTopPx s : ℚ) + (contentHeightPx s : ℚ) + 20)
     (marginLeftPx s : ℚ) ((marginTopPx s : ℚ) + (contentHeightPx s : ℚ))
     ((marginLeftPx s : ℚ) - 20) ((marginTopPx s : ℚ) + (contentHeightPx s : ℚ)),
   DrawCmd.cropMark ((marginLeftPx s : ℚ) + (contentWidthPx s : ℚ))
     ((marginTopPx s : ℚ) + (contentHeightPx s : ℚ) + 20)
     ((marginLeftPx s : ℚ) + (contentWidthPx s : ℚ))
     ((marginTopPx s : ℚ) + (contentHeightPx s : ℚ))
     ((marginLeftPx s : ℚ) + (contentWidthPx s : ℚ) + 20)
     ((marginTopPx s : ℚ) + (contentHeightPx s : ℚ))]

/-- The alignment-margin block: patterns at the top and bottom margins (when
present) followed by the crop marks; nothing when both margins are zero. -/
def marksCmds (s : JobSettings) : List DrawCmd :=
  if marginTopPx s > 0 ∨ marginBottomPx s > 0 then
    (if marginTopPx s > 0 then patternCmds s 0 (marginTopPx s : ℚ) else [])
    ++ (if marginBottomPx s > 0 then
          patternCmds s ((totalHeightPx s : ℚ) - (marginBottomPx s : ℚ)) (marginBottomPx s : ℚ)
        else [])
    ++ cropMarkCmds s
  else []

/-- The ordered drawing-command list of `generateLenticularImage`: white
background fill, then for each lens (stopping at the first lens whose start
passes the content width) and each frame of the direction-ordered sequence, a
clipped strip draw of the full scaled frame with its per-frame offset, then
the alignment marks.  `direction = RL` reverses the (image, frame) pairs
before interlacing; `stripPx` divides by the original `frames.length`. -/
def interlaceCmds (frames : List LFrame) (s : JobSettings) : List DrawCmd :=
  let seq := match s.direction with
    | Direction.RL => frames.reverse
    | Direction.LR => frames
  DrawCmd.fillBg (totalWidthPx s : ℚ) (totalHeightPx s : ℚ)
  :: (((List.range (numLenses s).toNat).takeWhile
        (fun (l : ℕ) => decide ((l : ℚ) * pitchPx s < (contentWidthPx s : ℚ)))).flatMap fun l =>
        seq.mapIdx fun f fr =>
          DrawCmd.strip (stripDestX s frames.length l f) (marginTopPx s : ℚ)
            (stripPx s frames.length) (contentHeightPx s : ℚ) fr
            ((marginLeftPx s : ℚ) + fr.xOffset) ((marginTopPx s : ℚ) + fr.yOffset)
            (contentWidthPx s : ℚ) (contentHeightPx s : ℚ))
  ++ marksCmds s

/-! ## Calibration chart — `generateCalibrationChart`
(src/lenticular-engine.ts, lines 181-249) -/

/-- `CalibrationSettings` from types.ts. -/
structure CalibrationSettings where
  centerLpi : ℚ
  stripCount : ℕ
  stepLpi : ℚ

/-- `stripHeight = heightPx / stripCount` — exact rational band height. -/
def stripHeight (s : JobSettings) (c : CalibrationSettings) : ℚ :=
  (contentHeightPx s : ℚ) / c.stripCount

/-- `startLpi = centerLpi - Math.floor(stripCount / 2) * stepLpi`. -/
def startLpi (c : CalibrationSettings) : ℚ :=
  c.centerLpi - (c.stripCount / 2 : ℕ) * c.stepLpi

/-- `currentLpi = startLpi + i * stepLpi` for band `i`. -/
def bandLpi (c : CalibrationSettings) (i : ℕ) : ℚ := startLpi c + i * c.stepLpi

/-- The vertical start `y = i * stripHeight` of band `i`. -/
def bandY (s : JobSettings) (c : CalibrationSettings) (i : ℕ) : ℚ :=
  i * stripHeight s c

/-- `pitchPx = hppi / currentLpi` for band `i`. -/
def bandPitchPx (s : JobSettings) (c : CalibrationSettings) (i : ℕ) : ℚ :=
  s.hppi / bandLpi c i

/-- `x = Math.round(j * pitchPx)` — rounded position of the `j`-th line. -/
def linePosition (s : JobSettings) (c : CalibrationSettings) (i j : ℕ) : ℤ :=
  round ((j : ℚ) * bandPitchPx s c i)

/-- `lineCount = Math.ceil(widthPx / pitchPx)` for band `i`. -/
def lineCount (s : JobSettings) (c : CalibrationSettings) (i : ℕ) : ℤ :=
  ⌈(contentWidthPx s : ℚ) / bandPitchPx s c i⌉

/-- One drawing command issued by `generateCalibrationChart`. -/
inductive CalibCmd
  | background (w hgt : ℚ)
  | lineRect (x : ℤ) (y : ℚ) (hgt : ℚ)
  | labelPatch (y : ℚ) (lpi : ℚ)
  | caption (ppi : ℚ) (lo hi : ℚ)
deriving DecidableEq

/-- The commands of one calibration band: the 1-px-wide vertical line
rectangles `rect(x, y, 1, stripHeight)` followed by the band label. -/
def bandCmds (s : JobSettings) (c : CalibrationSettings) (i : ℕ) : List CalibCmd :=
  ((List.range (lineCount s c i).toNat).map fun j =>
    CalibCmd.lineRect (linePosition s c i j) (bandY s c i) (stripHeight s c))
  ++ [CalibCmd.labelPatch (bandY s c i) (bandLpi c i)]

/-- The full command list of `generateCalibrationChart`: white background,
the bands in order, and the global caption reporting the PPI and the LPI
range `startLpi .. startLpi + (stripCount-1)·stepLpi`. -/
def calibCmds (s : JobSettings) (c : CalibrationSettings) : List CalibCmd :=
  CalibCmd.background (contentWidthPx s : ℚ) (contentHeightPx s : ℚ)
  :: ((List.range c.stripCount).flatMap fun i => bandCmds s c i)
  ++ [CalibCmd.caption s.hppi (startLpi c)
        (startLpi c + ((c.stripCount : ℚ) - 1) * c.stepLpi)]

/-! ## Concrete job used by the C3 strip-sampling check:
600 h-PPI, 60 LPI, two frames, no margins; the physical width is chosen so
that the content box is exactly 20 px wide (`(127/150)/25.4 · 600 = 20`). -/

/-- A 20 px × 20 px, 600 PPI, 60 LPI job with no margins. -/
def demoSettings : JobSettings :=
  { widthMm := 127/150, heightMm := 127/150, hppi := 600, vppi := 600, lpi := 60,
    marginTopMm := 0, marginBottomMm := 0, marginLeftMm := 0, marginRightMm := 0,
    alignmentPos := AlignmentPos.external, direction := Direction.LR }

/-- First demo frame (frame index 0). -/
def frameA : LFrame := ⟨0, 20, 20, 0, 0⟩

/-- Second demo frame (frame index 1). -/
def frameB : LFrame := ⟨1, 20, 20, 0, 0⟩

/-- The strip-draw commands of the job whose clip rectangle covers the
column `x` (the clip regions are what decides which frame's pixels land at a
given output column). -/
def stripsCovering (frames : List LFrame) (s : JobSettings) (x : ℚ) : List DrawCmd :=
  (interlaceCmds frames s).filter fun c =>
    match c with
    | DrawCmd.strip cx _ cw _ _ _ _ _ _ => decide (cx ≤ x ∧ x < cx + cw)
    | _ => false

/-- **C3**: in the print path the per-frame strip width is exactly
`(horizontalPPI/lpi)/frameCount` with no rounding, and the destination strip
for frame `f` under lens `l` starts at horizontal offset
`l·(horizontalPPI/lpi) + f·stripWidth` from the content origin
(`marginLeftPx` is the content origin's offset inside the page).  In
particular, with 2 frames, lpi = 60 and horizontalPPI = 600, the strip width
is exactly 5 px, the only clip rectangle covering lens 0's local column 2
belongs to frame 0, and the only one covering local column 7 belongs to
frame 1. -/
theorem strip_layout (s : JobSettings) (n : ℕ) (l f : ℕ) :
    (stripPx s n = s.hppi / s.lpi / n ∧
     stripDestX s n l f = (marginLeftPx s : ℚ) + l * (s.hppi / s.lpi) + f * stripPx s n) ∧
    stripPx demoSettings 2 = 5 ∧
    stripsCovering [frameA, frameB] demoSettings 2
      = [DrawCmd.strip 0 0 5 20 frameA 0 0 20 20] ∧
    stripsCovering [frameA, frameB] demoSettings 7
      = [DrawCmd.strip 5 0 5 20 frameB 0 0 20 20] := by
  have hcmds : interlaceCmds [frameA, frameB] demoSettings =
      [DrawCmd.fillBg 20 20,
       DrawCmd.strip 0 0 5 20 frameA 0 0 20 20,
       DrawCmd.strip 5 0 5 20 frameB 0 0 20 20,
       DrawCmd.strip 10 0 5 20 frameA 0 0 20 20,
       DrawCmd.strip 15 0 5 20 frameB 0 0 20 20] := by
    norm_num [interlaceCmds, demoSettings, frameA, frameB, numLenses, contentWidthPx,
      contentHeightPx, marginTopPx, marginBottomPx, marginLeftPx, marginRightPx,
      totalWidthPx, totalHeightPx, pitchPx, stripPx, stripDestX, marksCmds,
      List.range_succ, List.mapIdx_cons, List.takeWhile_cons, List.flatMap_cons,
      decide_eq_true_eq, show Int.toNat 2 = 2 from rfl]
  refine ⟨⟨rfl, by unfold stripDestX pitchPx stripPx; ring⟩,
    by norm_num [stripPx, pitchPx, demoSettings], ?_, ?_⟩
  · unfold stripsCovering
    rw [hcmds]
    norm_num [List.filter_cons, decide_eq_true_eq]
  · unfold stripsCovering
    rw [hcmds]
    norm_num [List.filter_cons, decide_eq_true_eq]

/-- **C4**: interlacing with `direction = RL` is pixel-identical to
interlacing the reversed frame list with `direction = LR`: the two calls
issue exactly the same drawing-command sequence (the per-frame pixel offsets
travel with their frames under the reversal, and the strip width divides by
the frame count, which reversal preserves). -/
theorem interlace_direction_reversal (frames : List LFrame) (s : JobSettings) :
    interlaceCmds frames { s with direction := Direction.RL }
      = interlaceCmds frames.reverse { s with direction := Direction.LR } := by
  simp [interlaceCmds, marksCmds, patternCmds, cropMarkCmds, contentWidthPx,
    contentHeightPx, marginTopPx, marginBottomPx, marginLeftPx, marginRightPx,
    totalWidthPx, totalHeightPx, pitchPx, stripPx, stripDestX, numLenses,
    List.length_reverse]

/-- **C6**: the calibration chart divides the content height into
`stripCount` equal bands of height `totalHeight/stripCount`; band `i` uses
LPI value `centerLpi + (i − ⌊stripCount/2⌋)·stepLpi`, with 1-px vertical
lines at nominal spacing `horizontalPPI/lpi_i`; the bottom caption reports
the range from the first band's LPI to the last band's LPI; and with
centerLpi = 60, stepLpi = 0.1, stripCount = 11 the band values are
59.5, 59.6, …, 60.5. -/
theorem calibration_chart_bands (s : JobSettings) (c : CalibrationSettings) (i : ℕ)
    (hcount : 1 ≤ c.stripCount) (hi : i < c.stripCount) :
    (bandLpi c i = c.centerLpi + ((i : ℚ) - (c.stripCount / 2 : ℕ)) * c.stepLpi ∧
     bandY s c i = (i : ℚ) * ((contentHeightPx s : ℚ) / c.stripCount) ∧
     (∀ j : ℕ, ((j : ℚ) + 1) * bandPitchPx s c i - (j : ℚ) * bandPitchPx s c i
        = s.hppi / bandLpi c i) ∧
     (calibCmds s c).getLast?
       = some (CalibCmd.caption s.hppi (bandLpi c 0) (bandLpi c (c.stripCount - 1)))) ∧
    (List.range 11).map (bandLpi ⟨60, 11, 1/10⟩)
      = [59.5, 59.6, 59.7, 59.8, 59.9, 60, 60.1, 60.2, 60.3, 60.4, 60.5] := by
  constructor
  · refine ⟨by unfold bandLpi startLpi; ring, rfl, fun j => by unfold bandPitchPx; ring, ?_⟩
    rw [calibCmds, show CalibCmd.background (contentWidthPx s : ℚ) (contentHeightPx s : ℚ)
        :: ((List.range c.stripCount).flatMap fun i => bandCmds s c i)
        ++ [CalibCmd.caption s.hppi (startLpi c)
            (startLpi c + ((c.stripCount : ℚ) - 1) * c.stepLpi)]
      = (CalibCmd.background (contentWidthPx s : ℚ) (contentHeightPx s : ℚ)
        :: ((List.range c.stripCount).flatMap fun i => bandCmds s c i))
        ++ [CalibCmd.caption s.hppi (startLpi c)
            (startLpi c + ((c.stripCount : ℚ) - 1) * c.stepLpi)] from rfl,
      List.getLast?_concat]
    have h0 : bandLpi c 0 = startLpi c := by unfold bandLpi; push_cast; ring
    have h1 : bandLpi c (c.stripCount - 1)
        = startLpi c + ((c.stripCount : ℚ) - 1) * c.stepLpi := by
      unfold bandLpi
      rw [Nat.cast_sub hcount]
      push_cast
      ring
    rw [h0, h1]
  · norm_num [bandLpi, startLpi, List.range_succ]

/-- Witness for C6: the 11-band chart at 600 PPI ends with a caption
reporting the range from band 0's LPI to band 10's LPI. -/
theorem calibration_chart_bands_witness :
    (1 ≤ (11:ℕ) ∧ (0:ℕ) < 11) ∧
    (calibCmds demoSettings ⟨60, 11, 1/10⟩).getLast?
      = some (CalibCmd.caption 600 (bandLpi ⟨60, 11, 1/10⟩ 0) (bandLpi ⟨60, 11, 1/10⟩ 10)) := by
  have h := calibration_chart_bands demoSettings ⟨60, 11, 1/10⟩ 0 (by norm_num) (by norm_num)
  exact ⟨⟨by norm_num, by norm_num⟩, h.1.2.2.2⟩

/-! ## GeometryModel — `calculateFOV` (src/physics.ts, lines 8-41)

The function is transcendental (square roots, inverse trigonometry), so it is
embedded over `ℝ`, mirroring the JavaScript `Math` library operation by
operation. -/

/-- `calculateFOV` transcribed from src/physics.ts: pitch from LPI, the
degenerate-geometry guards, half-angle, sagitta, derived thickness, refraction
by Snell's law against air index 1.0003, and the full cone angle in
degrees. -/
noncomputable def calculateFOV (lpi radiusMicrons thicknessMicrons refractiveIndex : ℝ) : ℝ :=
  let p := 25400 / lpi
  let r := radiusMicrons
  let e := thicknessMicrons
  let n := refractiveIndex
  if r ≤ 0 ∨ p ≤ 0 then 0
  else if p > 2 * r then 0
  else
    let A := Real.arcsin (p / (2 * r))
    let f := r - Real.sqrt (r * r - (p / 2) * (p / 2))
    let hthk := e - f
    if hthk ≤ 0 then 0
    else
      let R := A - Real.arctan (p / hthk)
      let sinI := n * Real.sin R / 1.0003
      if 1 < |sinI| then 0
      else 2 * (A - Real.arcsin sinI) * 180 / Real.pi

/-- The FOV computation exactly as the specification words it (C5): a single
sentinel test — radius ≤ 0, or pitch ≤ 0, or pitch > 2·radius, or derived
thickness ≤ 0, or |sinI| > 1 — and otherwise
`2·(asin(pitch/(2·radius)) − asin(sinI))` converted to degrees. -/
noncomputable def calculateFOVSpec (lpi radiusMicrons thicknessMicrons refractiveIndex : ℝ) : ℝ :=
  let pitch := 25400 / lpi
  let A := Real.arcsin (pitch / (2 * radiusMicrons))
  let sagitta := radiusMicrons
    - Real.sqrt (radiusMicrons * radiusMicrons - (pitch / 2) * (pitch / 2))
  let hderived := thicknessMicrons - sagitta
  let sinI := refractiveIndex * Real.sin (A - Real.arctan (pitch / hderived)) / 1.0003
  if radiusMicrons ≤ 0 ∨ pitch ≤ 0 ∨ pitch > 2 * radiusMicrons ∨ hderived ≤ 0
      ∨ 1 < |sinI| then 0
  else 2 * (A - Real.arcsin sinI) * 180 / Real.pi

/-- **C5**: `calculateFOV` returns the sentinel 0 exactly in the degenerate
cases listed by the specification (radius ≤ 0, pitch ≤ 0, pitch > 2·radius,
derived thickness ≤ 0, |sinI| > 1 with
`sinI = refractiveIndex·sin(A − atan(pitch/h))/1.0003`), and otherwise
returns `2·(asin(pitch/(2·radius)) − asin(sinI))` converted to degrees: the
transcribed code agrees with the specification's formula on every input. -/
theorem calculateFOV_eq_spec (lpi r e n : ℝ) :
    calculateFOV lpi r e n = calculateFOVSpec lpi r e n := by
  simp only [calculateFOV, calculateFOVSpec]
  split_ifs <;> first | rfl | tauto

lemma fov_main_bound (A I : ℝ) (hApos : 0 < A) (hAle : A ≤ Real.pi / 2)
    (hIlb : -(Real.pi / 2) ≤ I) (hIub : I ≤ Real.pi / 2) :
    -180 < 2 * (A - I) * 180 / Real.pi ∧ 2 * (A - I) * 180 / Real.pi ≤ 360 := by
  have hpi := Real.pi_pos
  constructor
  · rw [lt_div_iff hpi]
    nlinarith
  · rw [div_le_iff hpi]
    nlinarith

/-- **C1** (amended).  For every input with `lpi > 0` and `radius > 0`,
`calculateFOV` returns a value in the open-closed interval (−180, 360], and
returns 0 whenever `pitch = 25400/lpi` exceeds `2·radius`.  The converse
direction of the original claim is false (0 is also returned for degenerate
thickness and total internal reflection with pitch ≤ 2·radius), and the
claimed range [0, 180] is false in both directions — see the
counterexample. -/
theorem fov_range (lpi r e n : ℝ) (hlpi : 0 < lpi) (hr : 0 < r) :
    (-180 < calculateFOV lpi r e n ∧ calculateFOV lpi r e n ≤ 360) ∧
    (25400 / lpi > 2 * r → calculateFOV lpi r e n = 0) := by
  simp only [calculateFOV]
  split_ifs with h1 h2 h3 h4
  · exact ⟨⟨by norm_num, by norm_num⟩, fun _ => rfl⟩
  · exact ⟨⟨by norm_num, by norm_num⟩, fun _ => rfl⟩
  · exact ⟨⟨by norm_num, by norm_num⟩, fun _ => rfl⟩
  · exact ⟨⟨by norm_num, by norm_num⟩, fun _ => rfl⟩
  · refine ⟨?_, fun hgt => absurd hgt h2⟩
    have hp : 0 < 25400 / lpi := div_pos (by norm_num) hlpi
    exact fov_main_bound _ _
      (Real.arcsin_pos.mpr (div_pos hp (by linarith)))
      (Real.arcsin_le_pi_div_two _)
      (Real.neg_pi_div_two_le_arcsin _)
      (Real.arcsin_le_pi_div_two _)

/-- Witness for C1 (amended): at lpi = 100, radius = 1 µm the pitch
254 µm exceeds the lens diameter, and the function indeed returns the
sentinel 0, inside (−180, 360]. -/
theorem fov_range_witness :
    (0:ℝ) < 100 ∧ (0:ℝ) < 1 ∧ (25400:ℝ) / 100 > 2 * 1 ∧
    calculateFOV 100 1 100 1.5 = 0 ∧
    (-180 < calculateFOV 100 1 100 1.5 ∧ calculateFOV 100 1 100 1.5 ≤ 360) := by
  have h := fov_range 100 1 100 1.5 (by norm_num) (by norm_num)
  exact ⟨by norm_num, by norm_num, by norm_num, h.2 (by norm_num), h.1⟩

lemma sqrt4 : Real.sqrt 4 = 2 := by
  rw [show (4:ℝ) = 2^2 from by norm_num]
  exact Real.sqrt_sq (by norm_num)

lemma arcsin_half : Real.arcsin (1/2 : ℝ) = Real.pi / 6 := by
  rw [← Real.sin_pi_div_six]
  exact Real.arcsin_sin (by linarith [Real.pi_pos]) (by linarith [Real.pi_pos])

lemma arcsin_sqrt3_half : Real.arcsin (Real.sqrt 3 / 2) = Real.pi / 3 := by
  rw [← Real.sin_pi_div_three]
  exact Real.arcsin_sin (by linarith [Real.pi_pos]) (by linarith [Real.pi_pos])

lemma arcsin_neg_half : Real.arcsin (-(1/2) : ℝ) = -(Real.pi / 6) := by
  rw [Real.arcsin_neg, arcsin_half]

lemma sqrt3_pos : (0:ℝ) < Real.sqrt 3 := Real.sqrt_pos.mpr (by norm_num)

lemma sqrt3_lt : Real.sqrt 3 < 1.8 := by
  rw [show (1.8:ℝ) = 9/5 from by norm_num, Real.sqrt_lt' (by norm_num)]
  norm_num

lemma sqrt101_gt : (10:ℝ) < Real.sqrt 101 := by
  rw [show (10:ℝ) = Real.sqrt 100 from by
    rw [show (100:ℝ) = 10^2 from by norm_num]
    exact (Real.sqrt_sq (by norm_num)).symm]
  exact Real.sqrt_lt_sqrt (by norm_num) (by norm_num)

lemma sqrt101_lt : Real.sqrt 101 < 10.05 := by
  rw [show (10.05:ℝ) = 201/20 from by norm_num, Real.sqrt_lt' (by norm_num)]
  norm_num

lemma sqrt_101_over_100 : Real.sqrt (101/100) = Real.sqrt 101 / 10 := by
  rw [show (101/100:ℝ) = (Real.sqrt 101 / 10)^2 from by
    rw [div_pow, Real.sq_sqrt (by norm_num : (0:ℝ) ≤ 101)]; norm_num]
  exact Real.sqrt_sq (by positivity)

lemma inv_sqrt3 : (Real.sqrt 3)⁻¹ = Real.sqrt 3 / 3 := by
  rw [inv_eq_one_div, div_eq_div_iff sqrt3_pos.ne' (by norm_num : (3:ℝ) ≠ 0), one_mul,
    Real.mul_self_sqrt (by norm_num : (0:ℝ) ≤ 3)]

lemma inv_sqrt3_sq : ((Real.sqrt 3)⁻¹ : ℝ)^2 = 1/3 := by
  rw [inv_pow, Real.sq_sqrt (by norm_num : (0:ℝ) ≤ 3)]
  norm_num

lemma sqrt_one_twelfth : Real.sqrt (1/12) = Real.sqrt 3 / 6 := by
  rw [show (1/12:ℝ) = (Real.sqrt 3 / 6)^2 from by
    rw [div_pow, Real.sq_sqrt (by norm_num : (0:ℝ) ≤ 3)]; norm_num]
  exact Real.sqrt_sq (by positivity)

lemma sin_pi6_sub_arctan_tenth :
    Real.sin (Real.pi * (1/6) - Real.arctan (1/10))
      = (10 - Real.sqrt 3) / (2 * Real.sqrt 101) := by
  have h101 : Real.sqrt 101 ≠ 0 := by positivity
  rw [show Real.pi * (1/6) = Real.pi/6 from by ring, Real.sin_sub, Real.sin_pi_div_six,
    Real.cos_pi_div_six, Real.sin_arctan, Real.cos_arctan,
    show (1 + (1/10:ℝ)^2) = 101/100 from by norm_num, sqrt_101_over_100]
  field_simp

lemma sin_pi3_sub_arctan_ten :
    Real.sin (Real.pi / 3 - Real.arctan 10)
      = (Real.sqrt 3 - 10) / (2 * Real.sqrt 101) := by
  have h101 : Real.sqrt 101 ≠ 0 := by positivity
  rw [Real.sin_sub, Real.sin_pi_div_three, Real.cos_pi_div_three, Real.sin_arctan,
    Real.cos_arctan, show (1 + (10:ℝ)^2) = 101 from by norm_num]
  field_simp

lemma sqrt23871_le : Real.sqrt 23871 ≤ 200 := by
  rw [show (200:ℝ) = Real.sqrt 40000 from by
    rw [show (40000:ℝ) = 200^2 from by norm_num]
    exact (Real.sqrt_sq (by norm_num)).symm]
  exact Real.sqrt_le_sqrt (by norm_num)

/-- Counterexample for C1 as stated.  Three valid inputs (lpi > 0,
radius > 0) violate the claim: (a) lpi = 100, radius = 200 µm, thickness
0 µm has pitch 254 ≤ 2·200 yet FOV = 0 (degenerate derived thickness), so
"FOV = 0 exactly when pitch > 2·radius" fails; (b) lpi = 25400, radius =
1 µm, thickness 11 − √3/2 µm, n = 1.9 yields a strictly negative FOV; and
(c) lpi = 25400, radius = 1/√3 µm, thickness √3/6 + 1/10 µm, n = 1.5 yields
an FOV above 180 — so the claimed range [0, 180] fails on both sides. -/
theorem fov_range_counterexample :
    (calculateFOV 100 200 0 1.5 = 0 ∧ (25400:ℝ)/100 ≤ 2 * 200) ∧
    calculateFOV 25400 1 (11 - Real.sqrt 3 / 2) 1.9 < 0 ∧
    180 < calculateFOV 25400 (Real.sqrt 3)⁻¹ (Real.sqrt 3 / 6 + 1/10) 1.5 := by
  refine ⟨⟨?_, by norm_num⟩, ?_, ?_⟩
  · simp only [calculateFOV]
    norm_num
    intro hcon
    exact absurd hcon (not_lt.mpr sqrt23871_le)
  · simp only [calculateFOV]
    norm_num [sqrt4, arcsin_half]
    ring_nf
    rw [sin_pi6_sub_arctan_tenth]
    have h2v : (0:ℝ) < 2 * Real.sqrt 101 := by positivity
    have hval1 : (10 - Real.sqrt 3) / (2 * Real.sqrt 101) * (19000/10003) < 1 := by
      rw [div_mul_eq_mul_div, div_lt_iff h2v]
      nlinarith [sqrt3_pos, sqrt101_gt]
    have hval2 : (1/2 : ℝ) < (10 - Real.sqrt 3) / (2 * Real.sqrt 101) * (19000/10003) := by
      rw [div_mul_eq_mul_div, lt_div_iff h2v]
      nlinarith [sqrt3_lt, sqrt101_lt]
    have hvalpos : (0:ℝ) < (10 - Real.sqrt 3) / (2 * Real.sqrt 101) * (19000/10003) := by
      linarith
    rw [if_neg (show ¬(1 < |(10 - Real.sqrt 3) / (2 * Real.sqrt 101) * (19000/10003)|) from by
      rw [abs_of_pos hvalpos]; linarith)]
    have harc : Real.pi / 6
        < Real.arcsin ((10 - Real.sqrt 3) / (2 * Real.sqrt 101) * (19000/10003)) := by
      have := Real.strictMonoOn_arcsin
        (Set.mem_Icc.mpr ⟨by norm_num, by norm_num⟩)
        (Set.mem_Icc.mpr ⟨by linarith, by linarith⟩) hval2
      rwa [arcsin_half] at this
    have hpi := Real.pi_pos
    rw [mul_inv_cancel₀ Real.pi_ne_zero, one_mul, sub_neg]
    rw [show Real.arcsin ((10 - Real.sqrt 3) / (2 * Real.sqrt 101) * (19000/10003))
          * Real.pi⁻¹ * 360
        = Real.arcsin ((10 - Real.sqrt 3) / (2 * Real.sqrt 101) * (19000/10003))
          * 360 / Real.pi from by ring, lt_div_iff hpi]
    nlinarith [harc]
  · have hpi := Real.pi_pos
    have h2v : (0:ℝ) < 2 * Real.sqrt 101 := by positivity
    simp only [calculateFOV]
    norm_num
    ring_nf
    rw [if_neg (not_le.mpr sqrt3_pos)]
    rw [if_neg (show ¬((Real.sqrt 3)⁻¹ * 2 < 1) from by
      rw [not_lt, show ((Real.sqrt 3)⁻¹ * 2 : ℝ) = 2 / Real.sqrt 3 from by ring,
        le_div_iff sqrt3_pos, one_mul]
      linarith [sqrt3_lt])]
    rw [show (-1/4 + ((Real.sqrt 3)⁻¹:ℝ)^2) = 1/12 from by rw [inv_sqrt3_sq]; norm_num,
      sqrt_one_twelfth, inv_sqrt3]
    rw [if_neg (show ¬(1/10 + Real.sqrt 3 * (1/6) ≤ Real.sqrt 3 / 3 - Real.sqrt 3 / 6) from by
      rw [not_le]; nlinarith [sqrt3_pos])]
    rw [show (1/10 + (Real.sqrt 3 * (1/6) - Real.sqrt 3 / 3) + Real.sqrt 3 / 6 : ℝ)
        = 1/10 from by ring]
    rw [show ((1/10 : ℝ))⁻¹ = 10 from by norm_num]
    rw [show (Real.sqrt 3 * (1/2) : ℝ) = Real.sqrt 3 / 2 from by ring, arcsin_sqrt3_half]
    rw [sin_pi3_sub_arctan_ten]
    set v : ℝ := (Real.sqrt 3 - 10) / (2 * Real.sqrt 101) * (15000 / 10003) with hv
    have hvneg : v < 0 := by
      rw [hv, div_mul_eq_mul_div]
      apply div_neg_of_neg_of_pos _ h2v
      nlinarith [sqrt3_lt]
    have hvgt : -1 < v := by
      rw [hv, div_mul_eq_mul_div, lt_div_iff h2v]
      nlinarith [sqrt3_pos, sqrt101_gt]
    have hvlt : v < -(1/2) := by
      rw [hv, div_mul_eq_mul_div, div_lt_iff h2v]
      nlinarith [sqrt3_lt, sqrt101_lt]
    rw [if_neg (show ¬(1 < |v|) from by rw [abs_of_neg hvneg]; linarith)]
    have harc : Real.arcsin v < -(Real.pi/6) := by
      have := Real.strictMonoOn_arcsin
        (Set.mem_Icc.mpr ⟨by linarith, by linarith⟩)
        (Set.mem_Icc.mpr ⟨by norm_num, by norm_num⟩) hvlt
      rwa [arcsin_neg_half] at this
    have h120 : Real.pi / 3 * Real.pi⁻¹ * 360 = 120 := by
      rw [show Real.pi / 3 * Real.pi⁻¹ * 360 = Real.pi * Real.pi⁻¹ * 120 from by ring,
        mul_inv_cancel₀ Real.pi_ne_zero, one_mul]
    have hY : Real.arcsin v * Real.pi⁻¹ * 360 < -60 := by
      rw [show Real.arcsin v * Real.pi⁻¹ * 360 = Real.arcsin v * 360 / Real.pi from by ring,
        div_lt_iff hpi]
      nlinarith [harc]
    rw [h120]
    linarith [hY]

/-- At lpi = 25400, radius = 1 µm, thickness `1 + √3/2` µm, n = 1.5 the
refracted ray is exactly normal (R = 0), so the FOV is exactly
`2·(π/6)·180/π = 60` degrees — a concrete physically valid configuration
with strictly positive FOV, used to drive the simulation renderer into its
main drawing branch. -/
lemma fov_sixty : calculateFOV 25400 1 (1 + Real.sqrt 3 / 2) 1.5 = 60 := by
  simp only [calculateFOV]
  norm_num [sqrt4, arcsin_half]
  ring_nf
  rw [if_neg (not_le.mpr sqrt3_pos)]
  rw [show ((Real.sqrt 3)⁻¹ : ℝ) = 1 / Real.sqrt 3 from inv_eq_one_div _,
    ← Real.tan_pi_div_six,
    Real.arctan_tan (by linarith [Real.pi_pos]) (by linarith [Real.pi_pos])]
  rw [show Real.pi * (1/6) - Real.pi/6 = 0 from by ring, Real.sin_zero, zero_mul]
  rw [if_neg (by norm_num : ¬((1:ℝ) < |(0:ℝ)|)), Real.arcsin_zero, zero_mul, zero_mul,
    mul_inv_cancel₀ Real.pi_ne_zero, one_mul]
  norm_num

/-! ## ParallaxRenderer — `renderSimulationFrame` (src/physics.ts, lines 47-189)

The canvas work is modelled as the ordered list of drawing operations the
function performs.  The combined scanline/chromatic-aberration pixel pass
(one `getImageData` … `putImageData` block) appears as a single
`postProcess` command and the radial-gradient multiply as `vignette`. -/

/-- `PhysicsSettings` from types.ts. -/
structure PhysicsSettings where
  radiusMicrons : ℝ
  thicknessMicrons : ℝ
  refractiveIndex : ℝ
  viewingDistanceMm : ℝ

/-- A decoded frame raster as the renderer sees it (only width/height are
read). -/
structure SImage where
  width : ℝ
  height : ℝ

/-- JavaScript `Math.atan2 y x`. -/
noncomputable def jsAtan2 (y x : ℝ) : ℝ :=
  if 0 < x then Real.arctan (y / x)
  else if x < 0 then
    (if 0 ≤ y then Real.arctan (y / x) + Real.pi else Real.arctan (y / x) - Real.pi)
  else
    (if 0 < y then Real.pi / 2 else if y < 0 then -(Real.pi / 2) else 0)

/-- `t = (angle / fovRad) + 0.5`, mirrored when `direction = RL`
(before wrapping). -/
noncomputable def colT (direction : Direction) (fovDeg angle : ℝ) : ℝ :=
  let t0 := angle / (fovDeg * Real.pi / 180) + 0.5
  match direction with
  | Direction.RL => 1 - t0
  | Direction.LR => t0

/-- `idx = Math.floor(t * (numFrames - 1))` after wrapping
`t = t - Math.floor(t)` into `[0, 1)`. -/
noncomputable def colIdx (numFrames : ℕ) (t : ℝ) : ℤ :=
  ⌊Int.fract t * ((numFrames : ℝ) - 1)⌋

/-- `nextIdx = Math.min(idx + 1, numFrames - 1)`. -/
def nextIdxOf (numFrames : ℕ) (idx : ℤ) : ℤ := min (idx + 1) ((numFrames : ℤ) - 1)

/-- `mix = frameFloat - idx` — the fractional blend weight. -/
noncomputable def colMix (numFrames : ℕ) (t : ℝ) : ℝ :=
  Int.fract t * ((numFrames : ℝ) - 1) - colIdx numFrames t

/-- One canvas operation of `renderSimulationFrame`. -/
inductive SimCmd
  | clearRect (w hgt : ℝ)
  | fillRect (w hgt : ℝ)
  | errorText (msg : String) (x y : ℝ)
  | drawImage (frameIdx : ℕ) (sx sy sw sh dx dy dw dh alpha : ℝ)
  | postProcess (w hgt : ℝ)
  | vignette (w hgt : ℝ)

/-- Recognizer for the frame-slice draws. -/
def SimCmd.isDrawImage : SimCmd → Bool
  | SimCmd.drawImage .. => true
  | _ => false

/-- Recognizer for the visible error indicator. -/
def SimCmd.isErrorText : SimCmd → Bool
  | SimCmd.errorText .. => true
  | _ => false

/-- The per-column draw loop (`for x = 0; x < drawW; x += 2`): for each
stepped column, the primary frame slice and — when the blend weight exceeds
0.05 — the blended next-frame slice. -/
noncomputable def mainDrawCmds (width height : ℕ) (images : List SImage)
    (js : JobSettings) (ps : PhysicsSettings) (simX fovDeg : ℝ) : List SimCmd :=
  let img0 := images.headD ⟨1, 1⟩
  let aspect := img0.width / img0.height
  let drawW := if (width : ℝ) / aspect > height then (height : ℝ) * aspect else (width : ℝ)
  let drawH := if (width : ℝ) / aspect > height then (height : ℝ) else (width : ℝ) / aspect
  let offX : ℝ := (⌊((width : ℝ) - drawW) / 2⌋ : ℤ)
  let offY : ℝ := (⌊((height : ℝ) - drawH) / 2⌋ : ℤ)
  let n := images.length
  (List.range (⌈drawW / 2⌉ : ℤ).toNat).flatMap fun k =>
    let x : ℝ := 2 * k
    let angle := jsAtan2 ((x / drawW - 1/2) * (js.widthMm : ℝ) - (simX - 1/2) * 600)
      |(-ps.viewingDistanceMm)|
    let t := colT js.direction fovDeg angle
    let idx := colIdx n t
    let nextIdx := nextIdxOf n idx
    let mix := colMix n t
    let img := images.getD idx.toNat ⟨1, 1⟩
    let nextImg := images.getD nextIdx.toNat ⟨1, 1⟩
    SimCmd.drawImage idx.toNat (x / drawW * img.width) 0 (2 / drawW * img.width)
      img.height (offX + x) offY 2 drawH 1
    :: (if 0.05 < mix then
          [SimCmd.drawImage nextIdx.toNat (x / drawW * img.width) 0 (2 / drawW * img.width)
            nextImg.height (offX + x) offY 2 drawH mix]
        else [])

/-- The full operation list of `renderSimulationFrame`: clear and black fill,
then — silently — nothing more when the frame list is empty; the error text
when the FOV is non-positive; otherwise the per-column frame draws, the
scanline/chromatic pixel pass only under the 2 000 000-pixel budget, and the
radial vignette unconditionally. -/
noncomputable def renderSimCmds (width height : ℕ) (images : List SImage)
    (js : JobSettings) (ps : PhysicsSettings) (simX : ℝ) : List SimCmd :=
  let fovDeg := calculateFOV (js.lpi : ℝ) ps.radiusMicrons ps.thicknessMicrons
    ps.refractiveIndex
  SimCmd.clearRect width height :: SimCmd.fillRect width height ::
  (match images with
   | [] => []
   | _ =>
     if fovDeg ≤ 0 then
       [SimCmd.errorText "INVALID PHYSICS PARAMETERS" ((width : ℝ) / 2) ((height : ℝ) / 2)]
     else
       mainDrawCmds width height images js ps simX fovDeg
       ++ (if width * height < 2000000 then [SimCmd.postProcess width height] else [])
       ++ [SimCmd.vignette width height])

lemma mem_ite_singleton {α : Type} (P : Prop) [Decidable P] (a c : α)
    (hc : c ∈ (if P then [a] else [])) : c = a := by
  split at hc
  · simpa using hc
  · simp at hc

lemma mainDrawCmds_isDrawImage (width height : ℕ) (images : List SImage)
    (js : JobSettings) (ps : PhysicsSettings) (simX fovDeg : ℝ) :
    ∀ c ∈ mainDrawCmds width height images js ps simX fovDeg,
      c.isDrawImage = true := by
  intro c hc
  simp only [mainDrawCmds, List.mem_flatMap, List.mem_range] at hc
  obtain ⟨k, _, hk⟩ := hc
  rcases List.mem_cons.mp hk with h | h
  · subst h; rfl
  · rw [mem_ite_singleton _ _ _ h]
    rfl

/-- The default-preset physics (60 LPI inkjet): radius 254 µm, thickness
457 µm, refractive index 1.56, viewing distance 600 mm. -/
noncomputable def demoPhysics : PhysicsSettings := ⟨254, 457, 1.56, 600⟩

/-- The demo job retuned to lpi = 25400 so that the pitch is 1 µm. -/
def simSettings : JobSettings := { demoSettings with lpi := 25400 }

/-- Physics giving FOV exactly 60° (see `fov_sixty`). -/
noncomputable def simPhysics : PhysicsSettings := ⟨1, 1 + Real.sqrt 3 / 2, 1.5, 600⟩

lemma simSettings_fov_pos :
    0 < calculateFOV ((simSettings.lpi : ℚ) : ℝ) simPhysics.radiusMicrons
      simPhysics.thicknessMicrons simPhysics.refractiveIndex := by
  show 0 < calculateFOV (((25400 : ℚ) : ℝ)) 1 (1 + Real.sqrt 3 / 2) 1.5
  rw [show ((25400 : ℚ) : ℝ) = 25400 from by norm_num, fov_sixty]
  norm_num

/-- **C8** (amended).  Whenever the FOV is non-positive or the frame list is
empty, the renderer draws no frame pixels; the visible error indicator is
drawn exactly when the frame list is non-empty (an empty frame list returns
silently after the black background fill, with no indicator — contrary to
the original claim, see the counterexample). -/
theorem renderer_degenerate_inputs (width height : ℕ) (images : List SImage)
    (js : JobSettings) (ps : PhysicsSettings) (simX : ℝ)
    (hdeg : images = [] ∨ calculateFOV (js.lpi : ℝ) ps.radiusMicrons
      ps.thicknessMicrons ps.refractiveIndex ≤ 0) :
    (∀ c ∈ renderSimCmds width height images js ps simX, c.isDrawImage = false) ∧
    ((∃ c ∈ renderSimCmds width height images js ps simX, c.isErrorText = true)
      ↔ images ≠ []) := by
  cases images with
  | nil =>
    constructor
    · intro c hc
      simp only [renderSimCmds, List.mem_cons, List.not_mem_nil, or_false] at hc
      rcases hc with rfl | rfl
      · rfl
      · rfl
    · simp [renderSimCmds, SimCmd.isErrorText]
  | cons i rest =>
    have hfov : calculateFOV (js.lpi : ℝ) ps.radiusMicrons ps.thicknessMicrons
        ps.refractiveIndex ≤ 0 := hdeg.resolve_left (by simp)
    constructor
    · intro c hc
      simp only [renderSimCmds, if_pos hfov, List.mem_cons, List.not_mem_nil, or_false] at hc
      rcases hc with rfl | rfl | rfl
      · rfl
      · rfl
      · rfl
    · constructor
      · intro _
        simp
      · intro _
        refine ⟨SimCmd.errorText "INVALID PHYSICS PARAMETERS" ((width : ℝ)/2) ((height : ℝ)/2),
          ?_, rfl⟩
        simp [renderSimCmds, if_pos hfov]

/-- Witness for C8 (amended): with an empty frame list the renderer emits
only the clear and background fill — no frame pixels. -/
theorem renderer_degenerate_inputs_witness :
    (([] : List SImage) = [] ∨ calculateFOV ((demoSettings.lpi : ℚ) : ℝ)
      demoPhysics.radiusMicrons demoPhysics.thicknessMicrons
      demoPhysics.refractiveIndex ≤ 0) ∧
    (∀ c ∈ renderSimCmds 100 100 [] demoSettings demoPhysics (1/2),
      c.isDrawImage = false) := by
  exact ⟨Or.inl rfl,
    (renderer_degenerate_inputs 100 100 [] demoSettings demoPhysics (1/2) (Or.inl rfl)).1⟩

/-- Counterexample for C8 as stated: with an empty frame list (a degenerate
input the claim says must produce a visible error indicator) the renderer
draws no error indicator at all — it fails silently with a black
background. -/
theorem renderer_empty_list_silent :
    (renderSimCmds 100 100 [] demoSettings demoPhysics (1/2)).all
      (fun c => !c.isErrorText) = true := by
  simp [renderSimCmds, SimCmd.isErrorText]

/-- **C9** (amended).  In the main drawing branch, the scanline-darkening and
chromatic-aberration pixel pass runs exactly when `width·height < 2 000 000`;
the radial vignette, however, is applied unconditionally — in the original
claim's words, only two of the three post-processing effects are gated by the
pixel budget (see the counterexample for the vignette above budget). -/
theorem postprocessing_budget (width height : ℕ) (images : List SImage)
    (js : JobSettings) (ps : PhysicsSettings) (simX : ℝ)
    (himg : images ≠ [])
    (hfov : 0 < calculateFOV (js.lpi : ℝ) ps.radiusMicrons ps.thicknessMicrons
      ps.refractiveIndex) :
    ((SimCmd.postProcess width height ∈ renderSimCmds width height images js ps simX)
      ↔ width * height < 2000000) ∧
    SimCmd.vignette width height ∈ renderSimCmds width height images js ps simX := by
  obtain ⟨i, rest, rfl⟩ : ∃ i rest, images = i :: rest := by
    cases images with
    | nil => exact absurd rfl himg
    | cons i rest => exact ⟨i, rest, rfl⟩
  have hnle : ¬ (calculateFOV (js.lpi : ℝ) ps.radiusMicrons ps.thicknessMicrons
      ps.refractiveIndex ≤ 0) := not_le.mpr hfov
  constructor
  · constructor
    · intro hmem
      by_contra hbud
      simp only [renderSimCmds, if_neg hnle, if_neg hbud, List.append_nil,
        List.mem_cons, List.mem_append, List.not_mem_nil, or_false] at hmem
      rcases hmem with h | h | h | h
      · exact SimCmd.noConfusion h
      · exact SimCmd.noConfusion h
      · have := mainDrawCmds_isDrawImage _ _ _ _ _ _ _ _ h
        simp [SimCmd.isDrawImage] at this
      · exact SimCmd.noConfusion h
    · intro hbud
      simp [renderSimCmds, if_neg hnle, if_pos hbud]
  · simp [renderSimCmds, if_neg hnle]

/-- Witness for C9 (amended): a 1000×1000 canvas (below the budget) with one
frame and FOV = 60 runs the scanline/chromatic pass and the vignette. -/
theorem postprocessing_budget_witness :
    (([⟨20, 20⟩] : List SImage) ≠ [] ∧ (1000 * 1000 : ℕ) < 2000000) ∧
    SimCmd.postProcess 1000 1000
      ∈ renderSimCmds 1000 1000 [⟨20, 20⟩] simSettings simPhysics (1/2) ∧
    SimCmd.vignette 1000 1000
      ∈ renderSimCmds 1000 1000 [⟨20, 20⟩] simSettings simPhysics (1/2) := by
  have h := postprocessing_budget 1000 1000 [⟨20, 20⟩] simSettings simPhysics (1/2)
    (by simp) simSettings_fov_pos
  exact ⟨⟨by simp, by norm_num⟩, h.1.mpr (by norm_num), h.2⟩

/-- Counterexample for C9 as stated: on a 2000×1000 canvas
(`width·height = 2 000 000`, not below the budget) with one frame and
FOV = 60, the radial vignette is still applied even though the
scanline/chromatic pass is skipped — the vignette is not gated by the
documented pixel budget. -/
theorem postprocessing_vignette_above_budget :
    ¬ ((2000 * 1000 : ℕ) < 2000000) ∧
    SimCmd.vignette 2000 1000
      ∈ renderSimCmds 2000 1000 [⟨20, 20⟩] simSettings simPhysics (1/2) ∧
    SimCmd.postProcess 2000 1000
      ∉ renderSimCmds 2000 1000 [⟨20, 20⟩] simSettings simPhysics (1/2) := by
  have hnle : ¬ (calculateFOV ((simSettings.lpi : ℚ) : ℝ) simPhysics.radiusMicrons
      simPhysics.thicknessMicrons simPhysics.refractiveIndex ≤ 0) :=
    not_le.mpr simSettings_fov_pos
  refine ⟨by norm_num, ?_, ?_⟩
  · simp [renderSimCmds, if_neg hnle]
  · intro hmem
    simp only [renderSimCmds, if_neg hnle, if_neg (by norm_num : ¬((2000 * 1000 : ℕ) < 2000000)),
      List.append_nil, List.mem_cons, List.mem_append, List.not_mem_nil, or_false] at hmem
    rcases hmem with h | h | h | h
    · exact SimCmd.noConfusion h
    · exact SimCmd.noConfusion h
    · have := mainDrawCmds_isDrawImage _ _ _ _ _ _ _ _ h
      simp [SimCmd.isDrawImage] at this
    · exact SimCmd.noConfusion h

/-- **C10** (implicit): after wrapping `t` into [0,1), the frame indices
`idx = ⌊t·(numFrames−1)⌋` and `nextIdx = min(idx+1, numFrames−1)` computed by
the per-column loop always lie within `[0, numFrames−1]` for every non-empty
frame list — every frame-array access is in bounds, including the
single-frame case where both indices are 0. -/
theorem frame_index_bounds (numFrames : ℕ) (t : ℝ) (h : 1 ≤ numFrames) :
    0 ≤ colIdx numFrames t ∧ colIdx numFrames t ≤ (numFrames : ℤ) - 1 ∧
    0 ≤ nextIdxOf numFrames (colIdx numFrames t) ∧
    nextIdxOf numFrames (colIdx numFrames t) ≤ (numFrames : ℤ) - 1 := by
  have hf0 : 0 ≤ Int.fract t := Int.fract_nonneg t
  have hf1 : Int.fract t < 1 := Int.fract_lt_one t
  have hn1 : (0:ℝ) ≤ (numFrames : ℝ) - 1 := by
    have : (1:ℝ) ≤ (numFrames : ℝ) := by exact_mod_cast h
    linarith
  have hprod0 : 0 ≤ Int.fract t * ((numFrames : ℝ) - 1) := mul_nonneg hf0 hn1
  have hprodlt : Int.fract t * ((numFrames : ℝ) - 1) < (numFrames : ℝ) := by
    have hle : Int.fract t * ((numFrames : ℝ) - 1) ≤ (numFrames : ℝ) - 1 :=
      mul_le_of_le_one_left hn1 (le_of_lt hf1)
    linarith
  have hidx0 : 0 ≤ colIdx numFrames t := Int.floor_nonneg.mpr hprod0
  have hidxlt : colIdx numFrames t < (numFrames : ℤ) :=
    Int.floor_lt.mpr (by exact_mod_cast hprodlt)
  have hn1z : (1 : ℤ) ≤ (numFrames : ℤ) := by exact_mod_cast h
  refine ⟨hidx0, by omega, ?_, min_le_right _ _⟩
  unfold nextIdxOf
  exact le_min (by omega) (by omega)

/-- Witness for C10: with a single frame and raw parameter t = 0, both frame
indices are 0 and in bounds. -/
theorem frame_index_bounds_witness :
    (1 ≤ (1:ℕ)) ∧
    (0 ≤ colIdx 1 0 ∧ colIdx 1 0 ≤ (1 : ℤ) - 1 ∧
     0 ≤ nextIdxOf 1 (colIdx 1 0) ∧ nextIdxOf 1 (colIdx 1 0) ≤ (1 : ℤ) - 1) := by
  exact ⟨le_refl 1, frame_index_bounds 1 0 (le_refl 1)⟩

end LenticularLab
